import Mathlib

/-!
Shallow embedding of the `MapView` component's file-ingestion and
bounds-computation pipeline (`src/app/components/MapView.tsx`).

Coordinates are modelled as rationals.  The external libraries (JSZip,
DOMParser + toGeoJSON, exifr) are modelled by the data they return: an
uploaded file carries the outcome of each external call made on it, and the
KML-to-GeoJSON conversion is an oracle parameter `parseKml` shared by the two
handlers that use it.  Geometry collections are opaque except for the
coordinate points that `L.geoJSON(g).getBounds()` exposes.  Object URLs
(`URL.createObjectURL` / `URL.revokeObjectURL`) are modelled by a counter of
allocated handles and a list of released handles.
-/

namespace MapViewSpec

/-- A latitude/longitude pair, latitude first, in Leaflet's `LatLng` order. -/
abbrev LatLng : Type := ℚ × ℚ

/-- The hard-coded default map center `[17.6131, 121.7270]`. -/
def defaultCenter : LatLng := (176131 / 10000, 1217270 / 10000)

/-- A geometry collection produced by `toGeoJSON.kml`; for the pipeline it is
opaque except for the list of coordinate points (latitude, longitude) that
`L.geoJSON(g).getBounds()` ranges over. -/
structure Geo where
  points : List LatLng
  deriving DecidableEq

/-- The `PhotoMarker` interface of the component; `url` is the object-URL
handle allocated by `URL.createObjectURL`. -/
structure PhotoMarker where
  lat : ℚ
  lng : ℚ
  url : Nat
  name : String
  deriving DecidableEq

/-- The component state held in the four `useState` cells that the pipeline
touches. -/
structure MapState where
  geoData : List Geo
  trackingData : List Geo
  photoMarkers : List PhotoMarker
  mapCenter : LatLng
  deriving DecidableEq

/-- Browser-level object-URL bookkeeping: `nextHandle` numbers the next
`URL.createObjectURL` allocation and `released` lists the handles passed to
`URL.revokeObjectURL` so far. -/
structure Resources where
  nextHandle : Nat
  released : List Nat
  deriving DecidableEq

/-- One entry of a loaded zip archive: its name and the outcome of reading it
as text (`zip.files[name].async('text')`, which can reject). -/
structure ZipEntry where
  name : String
  text : Except String String

/-- An uploaded KMZ file, modelled by the outcome of
`file.arrayBuffer()` + `JSZip.loadAsync` on it: either a thrown error or the
list of archive entries in `Object.keys` order. -/
structure KmzInput where
  zip : Except String (List ZipEntry)

/-- An uploaded KML track file, modelled by the outcome of `file.text()`. -/
structure TrackInput where
  text : Except String String

/-- The object returned by `exifr.gps`: possibly-absent latitude and
longitude fields. -/
structure GpsData where
  latitude : Option ℚ
  longitude : Option ℚ
  deriving DecidableEq

/-- An uploaded photo, modelled by the outcome of `exifr.gps` on it (a thrown
error, `undefined`, or a `GpsData` object) and its file name. -/
structure PhotoInput where
  gps : Except String (Option GpsData)
  name : String

/-- The result of processing one uploaded file: a produced value, a silent
skip, or a caught failure together with the logged message. -/
inductive FileOutcome (α : Type) where
  | produced (val : α)
  | skipped
  | failed (log : String)
  deriving DecidableEq

/-- The geometry a file outcome contributes to the batch list, if any. -/
def outcomeGeo {α : Type} : FileOutcome α → Option α
  | .produced g => some g
  | .skipped => none
  | .failed _ => none

/-- One iteration of the `handleKmzFiles` loop body: load the archive, find
the first entry whose name ends in `.kml` (silently skipping the file when
there is none), read its text and convert it with `toGeoJSON.kml`; any thrown
error is caught and logged. -/
def processKmzFile (parseKml : String → Except String Geo) (f : KmzInput) :
    FileOutcome Geo :=
  match f.zip with
  | .error e => .failed ("Error reading KMZ: " ++ e)
  | .ok entries =>
    match entries.find? (fun ent => ent.name.endsWith (".kml")) with
    | none => .skipped
    | some ent =>
      match ent.text with
      | .error e => .failed ("Error reading KMZ: " ++ e)
      | .ok txt =>
        match parseKml txt with
        | .error e => .failed ("Error reading KMZ: " ++ e)
        | .ok g => .produced g

/-- One iteration of the `handleTrackingFiles` loop body: read the file as
text and convert it with `toGeoJSON.kml`; any thrown error is caught and
logged. -/
def processTrackFile (parseKml : String → Except String Geo) (f : TrackInput) :
    FileOutcome Geo :=
  match f.text with
  | .error e => .failed ("Error reading KML: " ++ e)
  | .ok txt =>
    match parseKml txt with
    | .error e => .failed ("Error reading KML: " ++ e)
    | .ok g => .produced g

/-- The per-batch loop shared by the KMZ and the track handlers: process the
files in order, pushing produced geometries into the batch list and
collecting the logged error messages. -/
def batchLoop {α : Type} (proc : α → FileOutcome Geo) :
    List α → List Geo × List String
  | [] => ([], [])
  | f :: rest =>
    let r := batchLoop proc rest
    match proc f with
    | .produced g => (g :: r.1, r.2)
    | .skipped => r
    | .failed e => (r.1, e :: r.2)

/-- The `handleKmzFiles` handler: a null file list returns immediately;
otherwise the batch loop runs and its results are appended to `geoData`.
The second component is the list of logged error messages. -/
def handleKmzFiles (parseKml : String → Except String Geo)
    (files : Option (List KmzInput)) (st : MapState) : MapState × List String :=
  match files with
  | none => (st, [])
  | some fs =>
    let r := batchLoop (processKmzFile parseKml) fs
    ({ st with geoData := st.geoData ++ r.1 }, r.2)

/-- The `handleTrackingFiles` handler: a null file list returns immediately;
otherwise the batch loop runs and its results are appended to
`trackingData`.  The second component is the list of logged error
messages. -/
def handleTrackingFiles (parseKml : String → Except String Geo)
    (files : Option (List TrackInput)) (st : MapState) : MapState × List String :=
  match files with
  | none => (st, [])
  | some fs =>
    let r := batchLoop (processTrackFile parseKml) fs
    ({ st with trackingData := st.trackingData ++ r.1 }, r.2)

/-- JavaScript truthiness of a possibly-absent number: `undefined`, `null`
and `0` are falsy. -/
def truthyQ : Option ℚ → Bool
  | none => false
  | some v => v != 0

/-- The `handlePhotos` loop: for each file, a thrown `exifr.gps` error is
caught and a warning logged; otherwise, when `exifData?.latitude &&
exifData?.longitude` is truthy, a marker is pushed whose `url` is the next
object-URL handle.  Returns the produced markers, the next free handle and
the logged warnings. -/
def photosLoop : List PhotoInput → Nat → List PhotoMarker × Nat × List String
  | [], n => ([], n, [])
  | f :: rest, n =>
    match f.gps with
    | .error _ =>
      let r := photosLoop rest n
      (r.1, r.2.1, ("No GPS data found in " ++ f.name) :: r.2.2)
    | .ok od =>
      if truthyQ (od.bind GpsData.latitude) && truthyQ (od.bind GpsData.longitude) then
        let r := photosLoop rest (n + 1)
        (⟨(od.bind GpsData.latitude).getD 0, (od.bind GpsData.longitude).getD 0,
            n, f.name⟩ :: r.1, r.2.1, r.2.2)
      else
        photosLoop rest n

/-- The `handlePhotos` handler: a null file list returns immediately; when
the loop produces no marker the handler alerts once and leaves the state
untouched; otherwise the markers are appended to `photoMarkers`.  The `Nat`
component counts the alerts fired and the final component is the list of
logged warnings. -/
def handlePhotos (files : Option (List PhotoInput)) (st : MapState)
    (res : Resources) : MapState × Resources × Nat × List String :=
  match files with
  | none => (st, res, 0, [])
  | some fs =>
    let r := photosLoop fs res.nextHandle
    if r.1.isEmpty then
      (st, { res with nextHandle := r.2.1 }, 1, r.2.2)
    else
      ({ st with photoMarkers := st.photoMarkers ++ r.1 },
        { res with nextHandle := r.2.1 }, 0, r.2.2)

/-- The `handleClearAll` handler: the three collections are reset to empty
and the center to the default.  No `URL.revokeObjectURL` call appears in the
source, so the resource bookkeeping is returned unchanged. -/
def handleClearAll (st : MapState) (res : Resources) : MapState × Resources :=
  ({ geoData := [], trackingData := [], photoMarkers := [], mapCenter := defaultCenter }, res)

/-- A valid (non-empty) Leaflet `LatLngBounds` rectangle. -/
structure Rect where
  minLat : ℚ
  maxLat : ℚ
  minLng : ℚ
  maxLng : ℚ
  deriving DecidableEq

/-- The degenerate rectangle at a single point. -/
def rectOfPoint (p : LatLng) : Rect := ⟨p.1, p.1, p.2, p.2⟩

/-- Extending a valid rectangle to contain one more point. -/
def rectExtend (r : Rect) (p : LatLng) : Rect :=
  ⟨min r.minLat p.1, max r.maxLat p.1, min r.minLng p.2, max r.maxLng p.2⟩

/-- The smallest rectangle containing two valid rectangles. -/
def rectMerge (r s : Rect) : Rect :=
  ⟨min r.minLat s.minLat, max r.maxLat s.maxLat,
    min r.minLng s.minLng, max r.maxLng s.maxLng⟩

/-- Leaflet's `LatLngBounds.extend` with a point; `none` is the invalid
(empty) bounds, which the point initialises. -/
def extendPoint : Option Rect → LatLng → Option Rect
  | none, p => some (rectOfPoint p)
  | some r, p => some (rectExtend r p)

/-- Leaflet's `LatLngBounds.extend` with another bounds: extending by an
invalid bounds is a no-op, and an invalid bounds extended by a valid one
becomes that one. -/
def extendBounds : Option Rect → Option Rect → Option Rect
  | b, none => b
  | none, some s => some s
  | some r, some s => some (rectMerge r s)

/-- The bounds that `L.geoJSON(g).getBounds()` reports: the smallest
rectangle containing the geometry's coordinates (invalid when it has
none). -/
def geoBounds (g : Geo) : Option Rect := g.points.foldl extendPoint none

/-- Leaflet's `LatLngBounds.getCenter`: the midpoint of the rectangle. -/
def rectCenter (r : Rect) : LatLng :=
  ((r.minLat + r.maxLat) / 2, (r.minLng + r.maxLng) / 2)

/-- The bounds accumulator built by the auto-center effect: starting from the
invalid bounds, extend by every boundary geometry's bounds, then every track
geometry's bounds, then every photo marker's coordinate. -/
def computeBounds (st : MapState) : Option Rect :=
  let b1 := st.geoData.foldl (fun b g => extendBounds b (geoBounds g)) none
  let b2 := st.trackingData.foldl (fun b g => extendBounds b (geoBounds g)) b1
  st.photoMarkers.foldl (fun b p => extendPoint b (p.lat, p.lng)) b2

/-- The auto-center `useEffect`: return early when all three collections are
empty; otherwise recompute the bounds and, when they are valid, move the map
center to their center. -/
def autoCenter (st : MapState) : MapState :=
  if st.geoData.isEmpty && st.trackingData.isEmpty && st.photoMarkers.isEmpty then st
  else
    match computeBounds st with
    | none => st
    | some r => { st with mapCenter := rectCenter r }

/-- Every coordinate contributed to the bounds accumulator, in contribution
order. -/
def allPoints (st : MapState) : List LatLng :=
  (st.geoData.map Geo.points).flatten ++ (st.trackingData.map Geo.points).flatten
    ++ st.photoMarkers.map (fun p => (p.lat, p.lng))

/-! ### Concrete sample inputs -/

/-- The empty initial state. -/
def st0 : MapState := ⟨[], [], [], defaultCenter⟩

/-- Fresh object-URL bookkeeping: no handle allocated, none released. -/
def res0 : Resources := ⟨0, []⟩

/-- A photo geotagged at (15, 121). -/
def photoGeo : PhotoInput := ⟨.ok (some ⟨some 15, some 121⟩), "beach.jpg"⟩

/-- A photo without GPS metadata (`exifr.gps` resolves to `undefined`). -/
def photoNoGps : PhotoInput := ⟨.ok none, "plain.jpg"⟩

/-- A photo whose GPS latitude is exactly 0. -/
def photoZero : PhotoInput := ⟨.ok (some ⟨some 0, some 121⟩), "zero.jpg"⟩

/-- A sample KML-conversion oracle: the text "good" parses to a one-point
geometry, anything else fails. -/
def pk0 : String → Except String Geo := fun s =>
  if s = "good" then .ok ⟨[(1, 2)]⟩ else .error ("parse error")

/-- A KMZ upload whose archive fails to load. -/
def kmzBad : KmzInput := ⟨.error ("corrupt")⟩

/-- A KMZ upload with a single `.kml` entry whose text parses under `pk0`. -/
def kmzGood : KmzInput := ⟨.ok [⟨"doc.kml", .ok ("good")⟩]⟩

/-- A KMZ upload whose archive has no `.kml` entry. -/
def kmzNoKml : KmzInput := ⟨.ok [⟨"readme.txt", .ok ("hi")⟩]⟩

/-- A track upload whose text fails to parse under `pk0`. -/
def trackBad : TrackInput := ⟨.ok ("bad")⟩

/-- A state whose only content is one geometry with no coordinates. -/
def stEmptyGeo : MapState := ⟨[⟨[]⟩], [], [], (1, 2)⟩

/-- A state whose only content is one photo marker at (1, 2). -/
def stOneMarker : MapState := ⟨[], [], [⟨1, 2, 0, "p.jpg"⟩], defaultCenter⟩

/-! ### Lemmas about the batch loops -/

theorem batchLoop_fst {α : Type} (proc : α → FileOutcome Geo) (fs : List α) :
    (batchLoop proc fs).1 = fs.filterMap (fun f => outcomeGeo (proc f)) := by
  induction fs with
  | nil => rfl
  | cons f t ih =>
    cases hp : proc f <;> simp [batchLoop, hp, outcomeGeo, List.filterMap_cons, ih]

theorem batchLoop_log_mem {α : Type} (proc : α → FileOutcome Geo) (fs : List α)
    (f : α) (hf : f ∈ fs) (e : String) (hfe : proc f = .failed e) :
    e ∈ (batchLoop proc fs).2 := by
  induction fs with
  | nil => cases hf
  | cons g t ih =>
    rcases List.mem_cons.mp hf with rfl | hf'
    · simp [batchLoop, hfe]
    · cases hp : proc g <;> simp [batchLoop, hp, ih hf']

theorem find?_of_filter_singleton {α : Type} (p : α → Bool) (l : List α) (a : α)
    (h : l.filter p = [a]) : l.find? p = some a := by
  induction l with
  | nil => simp at h
  | cons x t ih =>
    cases hx : p x with
    | true =>
      rw [List.filter_cons_of_pos hx] at h
      rw [List.find?_cons_of_pos t hx]
      exact congrArg some (List.cons_eq_cons.mp h).1
    | false =>
      rw [List.filter_cons_of_neg (by simp [hx])] at h
      rw [List.find?_cons_of_neg t (by simp [hx])]
      exact ih h

set_option maxRecDepth 4000 in
theorem docKml_ends_kml : ("doc.kml".endsWith (".kml")) = true := by
  simp +decide [String.endsWith, Substring.takeRight, Substring.hasBeq, Substring.beq,
    String.substrEq, String.substrEq.loop, Substring.prevn, Substring.prev, String.prev,
    String.utf8PrevAux, String.get, String.utf8GetAux, String.endPos,
    String.utf8ByteSize, String.toSubstring, String.length, Char.utf8Size,
    Substring.bsize, String.utf8ByteSize.go, String.Pos.add_eq, String.Pos.ext_iff,
    Substring.startPos, Substring.stopPos]

set_option maxRecDepth 4000 in
theorem readmeTxt_not_ends_kml : ("readme.txt".endsWith (".kml")) = false := by
  simp +decide [String.endsWith, Substring.takeRight, Substring.hasBeq, Substring.beq,
    String.substrEq, String.substrEq.loop, Substring.prevn, Substring.prev, String.prev,
    String.utf8PrevAux, String.get, String.utf8GetAux, String.endPos,
    String.utf8ByteSize, String.toSubstring, String.length, Char.utf8Size,
    Substring.bsize, String.utf8ByteSize.go, String.Pos.add_eq, String.Pos.ext_iff,
    Substring.startPos, Substring.stopPos]

theorem photosLoop_mem (fs : List PhotoInput) (n : Nat) (f : PhotoInput)
    (hf : f ∈ fs) (gd : GpsData) (hgps : f.gps = .ok (some gd)) (la ln : ℚ)
    (hla : gd.latitude = some la) (hln : gd.longitude = some ln)
    (hla0 : la ≠ 0) (hln0 : ln ≠ 0) :
    ∃ m ∈ (photosLoop fs n).1, m.lat = la ∧ m.lng = ln ∧ m.name = f.name := by
  induction fs generalizing n with
  | nil => cases hf
  | cons g t ih =>
    rcases List.mem_cons.mp hf with rfl | hf'
    · refine ⟨⟨la, ln, n, f.name⟩, ?_, rfl, rfl, rfl⟩
      simp [photosLoop, hgps, hla, hln, truthyQ, hla0, hln0]
    · cases hgg : g.gps with
      | error e =>
        obtain ⟨m, hm, hmp⟩ := ih n hf'
        exact ⟨m, by simp [photosLoop, hgg]; exact hm, hmp⟩
      | ok od =>
        by_cases hcond :
            (truthyQ (od.bind GpsData.latitude) && truthyQ (od.bind GpsData.longitude)) = true
        · obtain ⟨m, hm, hmp⟩ := ih (n + 1) hf'
          exact ⟨m, by simp [photosLoop, hgg, hcond]; exact Or.inr hm, hmp⟩
        · obtain ⟨m, hm, hmp⟩ := ih n hf'
          refine ⟨m, ?_, hmp⟩
          simpa [photosLoop, hgg, hcond] using hm

/-! ### Lemmas about the bounds accumulator -/

theorem extendBounds_none_right (b : Option Rect) : extendBounds b none = b := by
  cases b <;> rfl

theorem extendBounds_extendPoint (b c : Option Rect) (p : LatLng) :
    extendBounds b (extendPoint c p) = extendPoint (extendBounds b c) p := by
  cases b <;> cases c <;>
    simp [extendBounds, extendPoint, rectMerge, rectExtend, rectOfPoint,
      min_assoc, max_assoc]

theorem foldl_extendPoint_extendBounds (l : List LatLng) (b c : Option Rect) :
    l.foldl extendPoint (extendBounds b c) = extendBounds b (l.foldl extendPoint c) := by
  induction l generalizing c with
  | nil => rfl
  | cons p t ih => simp [List.foldl_cons, ← extendBounds_extendPoint, ih]

theorem foldl_geoBounds (gs : List Geo) (b : Option Rect) :
    gs.foldl (fun b g => extendBounds b (geoBounds g)) b
      = ((gs.map Geo.points).flatten).foldl extendPoint b := by
  induction gs generalizing b with
  | nil => rfl
  | cons g t ih =>
    have hb : extendBounds b (geoBounds g) = g.points.foldl extendPoint b := by
      have := foldl_extendPoint_extendBounds g.points b none
      rw [extendBounds_none_right] at this
      exact this.symm
    simp [List.foldl_cons, hb, ih, List.foldl_append]

theorem computeBounds_eq (st : MapState) :
    computeBounds st = (allPoints st).foldl extendPoint none := by
  simp only [computeBounds, allPoints, foldl_geoBounds, List.foldl_append,
    List.foldl_map]

theorem foldl_extendPoint_some (l : List LatLng) (r : Rect) :
    l.foldl extendPoint (some r) = some (l.foldl rectExtend r) := by
  induction l generalizing r with
  | nil => rfl
  | cons p t ih => simpa [List.foldl_cons, extendPoint] using ih (rectExtend r p)

theorem foldl_rectExtend_minLat (l : List LatLng) (r : Rect) :
    (l.foldl rectExtend r).minLat = (l.map Prod.fst).foldl min r.minLat := by
  induction l generalizing r with
  | nil => rfl
  | cons p t ih => simpa [List.foldl_cons, rectExtend] using ih (rectExtend r p)

theorem foldl_rectExtend_maxLat (l : List LatLng) (r : Rect) :
    (l.foldl rectExtend r).maxLat = (l.map Prod.fst).foldl max r.maxLat := by
  induction l generalizing r with
  | nil => rfl
  | cons p t ih => simpa [List.foldl_cons, rectExtend] using ih (rectExtend r p)

theorem foldl_rectExtend_minLng (l : List LatLng) (r : Rect) :
    (l.foldl rectExtend r).minLng = (l.map Prod.snd).foldl min r.minLng := by
  induction l generalizing r with
  | nil => rfl
  | cons p t ih => simpa [List.foldl_cons, rectExtend] using ih (rectExtend r p)

theorem foldl_rectExtend_maxLng (l : List LatLng) (r : Rect) :
    (l.foldl rectExtend r).maxLng = (l.map Prod.snd).foldl max r.maxLng := by
  induction l generalizing r with
  | nil => rfl
  | cons p t ih => simpa [List.foldl_cons, rectExtend] using ih (rectExtend r p)

theorem foldl_min_le_init (l : List ℚ) (a : ℚ) : l.foldl min a ≤ a := by
  induction l generalizing a with
  | nil => exact le_refl a
  | cons x t ih => exact le_trans (ih (min a x)) (min_le_left a x)

theorem foldl_min_le_mem (l : List ℚ) (a x : ℚ) (hx : x ∈ l) : l.foldl min a ≤ x := by
  induction l generalizing a with
  | nil => cases hx
  | cons y t ih =>
    rcases List.mem_cons.mp hx with rfl | hx'
    · exact le_trans (foldl_min_le_init t (min a x)) (min_le_right a x)
    · exact ih (min a y) hx'

theorem foldl_min_attained (l : List ℚ) (a : ℚ) :
    l.foldl min a = a ∨ l.foldl min a ∈ l := by
  induction l generalizing a with
  | nil => exact Or.inl rfl
  | cons x t ih =>
    rcases ih (min a x) with h | h
    · rcases min_choice a x with hm | hm
      · exact Or.inl (by rw [List.foldl_cons, h, hm])
      · exact Or.inr (by rw [List.foldl_cons, h, hm]; exact List.mem_cons_self x t)
    · exact Or.inr (List.mem_cons_of_mem x h)

theorem foldl_max_ge_init (l : List ℚ) (a : ℚ) : a ≤ l.foldl max a := by
  induction l generalizing a with
  | nil => exact le_refl a
  | cons x t ih => exact le_trans (le_max_left a x) (ih (max a x))

theorem foldl_max_ge_mem (l : List ℚ) (a x : ℚ) (hx : x ∈ l) : x ≤ l.foldl max a := by
  induction l generalizing a with
  | nil => cases hx
  | cons y t ih =>
    rcases List.mem_cons.mp hx with rfl | hx'
    · exact le_trans (le_max_right a x) (foldl_max_ge_init t (max a x))
    · exact ih (max a y) hx'

theorem foldl_max_attained (l : List ℚ) (a : ℚ) :
    l.foldl max a = a ∨ l.foldl max a ∈ l := by
  induction l generalizing a with
  | nil => exact Or.inl rfl
  | cons x t ih =>
    rcases ih (max a x) with h | h
    · rcases max_choice a x with hm | hm
      · exact Or.inl (by rw [List.foldl_cons, h, hm])
      · exact Or.inr (by rw [List.foldl_cons, h, hm]; exact List.mem_cons_self x t)
    · exact Or.inr (List.mem_cons_of_mem x h)

/-! ### The bounding-box center lies in the convex hull -/

theorem bboxCenter_mem_convexHull (S : Set (ℝ × ℝ)) (A B C D : ℝ × ℝ)
    (hA : A ∈ S) (hB : B ∈ S) (hC : C ∈ S) (hD : D ∈ S)
    (xlo xhi ylo yhi : ℝ)
    (hAx : A.1 = xlo) (hBx : B.1 = xhi) (hCy : C.2 = ylo) (hDy : D.2 = yhi)
    (hAy1 : ylo ≤ A.2) (hAy2 : A.2 ≤ yhi) (hBy1 : ylo ≤ B.2) (hBy2 : B.2 ≤ yhi)
    (hCx1 : xlo ≤ C.1) (hCx2 : C.1 ≤ xhi) (hDx1 : xlo ≤ D.1) (hDx2 : D.1 ≤ xhi) :
    (((xlo + xhi) / 2, (ylo + yhi) / 2) : ℝ × ℝ) ∈ convexHull ℝ S := by
  have hTS : ({A, B, C, D} : Set (ℝ × ℝ)) ⊆ S := by
    intro z hz
    simp only [Set.mem_insert_iff, Set.mem_singleton_iff] at hz
    rcases hz with rfl | rfl | rfl | rfl
    · exact hA
    · exact hB
    · exact hC
    · exact hD
  have hmemT : (((xlo + xhi) / 2, (ylo + yhi) / 2) : ℝ × ℝ) ∈
      convexHull ℝ ({A, B, C, D} : Set (ℝ × ℝ)) := by
    by_contra hcc
    have hfin : ({A, B, C, D} : Set (ℝ × ℝ)).Finite :=
      (((Set.finite_singleton D).insert C).insert B).insert A
    obtain ⟨f, u, hfu, hufc⟩ :=
      geometric_hahn_banach_closed_point (convex_convexHull ℝ _)
        hfin.isClosed_convexHull hcc
    have hfval : ∀ z : ℝ × ℝ, f z = z.1 * f (1, 0) + z.2 * f (0, 1) := by
      intro z
      have hz : z = z.1 • ((1 : ℝ), (0 : ℝ)) + z.2 • ((0 : ℝ), (1 : ℝ)) := by
        cases z with
        | mk zx zy => simp [Prod.ext_iff]
      calc f z = f (z.1 • ((1 : ℝ), (0 : ℝ)) + z.2 • ((0 : ℝ), (1 : ℝ))) := by rw [← hz]
      _ = z.1 * f (1, 0) + z.2 * f (0, 1) := by
          rw [map_add, map_smul, map_smul]
          simp [smul_eq_mul]
    have hmem : ∀ z ∈ ({A, B, C, D} : Set (ℝ × ℝ)), f z < u := fun z hz =>
      hfu z (subset_convexHull ℝ _ hz)
    have hfA : f A < u := hmem A (by simp)
    have hfB : f B < u := hmem B (by simp)
    have hfC : f C < u := hmem C (by simp)
    have hfD : f D < u := hmem D (by simp)
    rw [hfval A] at hfA
    rw [hfval B] at hfB
    rw [hfval C] at hfC
    rw [hfval D] at hfD
    rw [hfval ((xlo + xhi) / 2, (ylo + yhi) / 2)] at hufc
    simp only at hufc
    set a := f (1, 0) with ha
    set b := f (0, 1) with hb
    rcases le_or_lt 0 a with hpa | hna <;> rcases le_or_lt 0 b with hpb | hnb
    · have h1 : ylo * b ≤ B.2 * b := mul_le_mul_of_nonneg_right hBy1 hpb
      have h2 : xlo * a ≤ D.1 * a := mul_le_mul_of_nonneg_right hDx1 hpa
      rw [hBx] at hfB
      rw [hDy] at hfD
      linarith
    · have h1 : yhi * b ≤ B.2 * b := mul_le_mul_of_nonpos_right hBy2 hnb.le
      have h2 : xlo * a ≤ C.1 * a := mul_le_mul_of_nonneg_right hCx1 hpa
      rw [hBx] at hfB
      rw [hCy] at hfC
      linarith
    · have h1 : ylo * b ≤ A.2 * b := mul_le_mul_of_nonneg_right hAy1 hpb
      have h2 : xhi * a ≤ D.1 * a := mul_le_mul_of_nonpos_right hDx2 hna.le
      rw [hAx] at hfA
      rw [hDy] at hfD
      linarith
    · have h1 : yhi * b ≤ A.2 * b := mul_le_mul_of_nonpos_right hAy2 hnb.le
      have h2 : xhi * a ≤ C.1 * a := mul_le_mul_of_nonpos_right hCx2 hna.le
      rw [hAx] at hfA
      rw [hCy] at hfC
      linarith
  exact convexHull_mono hTS hmemT

theorem allPoints_empty_state (st : MapState) (hg : st.geoData = [])
    (ht : st.trackingData = []) (hp : st.photoMarkers = []) : allPoints st = [] := by
  simp [allPoints, hg, ht, hp]

/-- C7: whenever at least one coordinate is loaded, the recomputed viewport
center lies within the convex hull (in the real plane) of all loaded geometry
and marker coordinates. -/
theorem C7_center_in_convex_hull (st : MapState) (h : allPoints st ≠ []) :
    ((((autoCenter st).mapCenter.1 : ℝ), ((autoCenter st).mapCenter.2 : ℝ)) : ℝ × ℝ) ∈
      convexHull ℝ
        ((fun p : LatLng => ((p.1 : ℝ), (p.2 : ℝ))) '' {p | p ∈ allPoints st}) := by
  obtain ⟨q, rest, heq⟩ : ∃ q rest, allPoints st = q :: rest := by
    cases hal : allPoints st with
    | nil => exact absurd hal h
    | cons q rest => exact ⟨q, rest, rfl⟩
  set r : Rect := rest.foldl rectExtend (rectOfPoint q) with hr
  have hfold : (allPoints st).foldl extendPoint none = some r := by
    rw [heq]
    simpa [List.foldl_cons, extendPoint] using foldl_extendPoint_some rest (rectOfPoint q)
  have hcb : computeBounds st = some r := by rw [computeBounds_eq, hfold]
  have hcond :
      ¬(st.geoData.isEmpty && st.trackingData.isEmpty && st.photoMarkers.isEmpty) = true := by
    intro hgt
    simp only [Bool.and_eq_true, List.isEmpty_iff] at hgt
    exact h (allPoints_empty_state st hgt.1.1 hgt.1.2 hgt.2)
  have hac : autoCenter st = { st with mapCenter := rectCenter r } := by
    unfold autoCenter
    rw [if_neg hcond, hcb]
  have hminLat : r.minLat = (rest.map Prod.fst).foldl min q.1 := by
    simpa [rectOfPoint] using foldl_rectExtend_minLat rest (rectOfPoint q)
  have hmaxLat : r.maxLat = (rest.map Prod.fst).foldl max q.1 := by
    simpa [rectOfPoint] using foldl_rectExtend_maxLat rest (rectOfPoint q)
  have hminLng : r.minLng = (rest.map Prod.snd).foldl min q.2 := by
    simpa [rectOfPoint] using foldl_rectExtend_minLng rest (rectOfPoint q)
  have hmaxLng : r.maxLng = (rest.map Prod.snd).foldl max q.2 := by
    simpa [rectOfPoint] using foldl_rectExtend_maxLng rest (rectOfPoint q)
  have hbound : ∀ p ∈ q :: rest,
      r.minLat ≤ p.1 ∧ p.1 ≤ r.maxLat ∧ r.minLng ≤ p.2 ∧ p.2 ≤ r.maxLng := by
    intro p hp
    rcases List.mem_cons.mp hp with rfl | hp'
    · exact ⟨hminLat ▸ foldl_min_le_init _ _, hmaxLat ▸ foldl_max_ge_init _ _,
        hminLng ▸ foldl_min_le_init _ _, hmaxLng ▸ foldl_max_ge_init _ _⟩
    · exact ⟨hminLat ▸ foldl_min_le_mem _ _ _ (List.mem_map_of_mem Prod.fst hp'),
        hmaxLat ▸ foldl_max_ge_mem _ _ _ (List.mem_map_of_mem Prod.fst hp'),
        hminLng ▸ foldl_min_le_mem _ _ _ (List.mem_map_of_mem Prod.snd hp'),
        hmaxLng ▸ foldl_max_ge_mem _ _ _ (List.mem_map_of_mem Prod.snd hp')⟩
  have hattA : ∃ p ∈ q :: rest, p.1 = r.minLat := by
    rw [hminLat]
    rcases foldl_min_attained (rest.map Prod.fst) q.1 with hh | hh
    · exact ⟨q, List.mem_cons_self q rest, hh.symm⟩
    · obtain ⟨p, hp, hpe⟩ := List.mem_map.mp hh
      exact ⟨p, List.mem_cons_of_mem q hp, hpe⟩
  have hattB : ∃ p ∈ q :: rest, p.1 = r.maxLat := by
    rw [hmaxLat]
    rcases foldl_max_attained (rest.map Prod.fst) q.1 with hh | hh
    · exact ⟨q, List.mem_cons_self q rest, hh.symm⟩
    · obtain ⟨p, hp, hpe⟩ := List.mem_map.mp hh
      exact ⟨p, List.mem_cons_of_mem q hp, hpe⟩
  have hattC : ∃ p ∈ q :: rest, p.2 = r.minLng := by
    rw [hminLng]
    rcases foldl_min_attained (rest.map Prod.snd) q.2 with hh | hh
    · exact ⟨q, List.mem_cons_self q rest, hh.symm⟩
    · obtain ⟨p, hp, hpe⟩ := List.mem_map.mp hh
      exact ⟨p, List.mem_cons_of_mem q hp, hpe⟩
  have hattD : ∃ p ∈ q :: rest, p.2 = r.maxLng := by
    rw [hmaxLng]
    rcases foldl_max_attained (rest.map Prod.snd) q.2 with hh | hh
    · exact ⟨q, List.mem_cons_self q rest, hh.symm⟩
    · obtain ⟨p, hp, hpe⟩ := List.mem_map.mp hh
      exact ⟨p, List.mem_cons_of_mem q hp, hpe⟩
  obtain ⟨pA, hpA, heA⟩ := hattA
  obtain ⟨pB, hpB, heB⟩ := hattB
  obtain ⟨pC, hpC, heC⟩ := hattC
  obtain ⟨pD, hpD, heD⟩ := hattD
  have himg : ∀ p ∈ q :: rest,
      (((p.1 : ℝ), (p.2 : ℝ)) : ℝ × ℝ) ∈
        ((fun p : LatLng => ((p.1 : ℝ), (p.2 : ℝ))) '' {p | p ∈ allPoints st}) := by
    intro p hp
    exact ⟨p, by rw [Set.mem_setOf_eq, heq]; exact hp, rfl⟩
  have hgoal :
      ((((r.minLat : ℝ) + (r.maxLat : ℝ)) / 2, ((r.minLng : ℝ) + (r.maxLng : ℝ)) / 2) : ℝ × ℝ) ∈
        convexHull ℝ
          ((fun p : LatLng => ((p.1 : ℝ), (p.2 : ℝ))) '' {p | p ∈ allPoints st}) := by
    refine bboxCenter_mem_convexHull _
      ((pA.1 : ℝ), (pA.2 : ℝ)) ((pB.1 : ℝ), (pB.2 : ℝ))
      ((pC.1 : ℝ), (pC.2 : ℝ)) ((pD.1 : ℝ), (pD.2 : ℝ))
      (himg pA hpA) (himg pB hpB) (himg pC hpC) (himg pD hpD)
      (r.minLat : ℝ) (r.maxLat : ℝ) (r.minLng : ℝ) (r.maxLng : ℝ)
      (by show (pA.1 : ℝ) = (r.minLat : ℝ); exact_mod_cast heA)
      (by show (pB.1 : ℝ) = (r.maxLat : ℝ); exact_mod_cast heB)
      (by show (pC.2 : ℝ) = (r.minLng : ℝ); exact_mod_cast heC)
      (by show (pD.2 : ℝ) = (r.maxLng : ℝ); exact_mod_cast heD)
      ?_ ?_ ?_ ?_ ?_ ?_ ?_ ?_
    · show (r.minLng : ℝ) ≤ (pA.2 : ℝ)
      exact_mod_cast (hbound pA hpA).2.2.1
    · show (pA.2 : ℝ) ≤ (r.maxLng : ℝ)
      exact_mod_cast (hbound pA hpA).2.2.2
    · show (r.minLng : ℝ) ≤ (pB.2 : ℝ)
      exact_mod_cast (hbound pB hpB).2.2.1
    · show (pB.2 : ℝ) ≤ (r.maxLng : ℝ)
      exact_mod_cast (hbound pB hpB).2.2.2
    · show (r.minLat : ℝ) ≤ (pC.1 : ℝ)
      exact_mod_cast (hbound pC hpC).1
    · show (pC.1 : ℝ) ≤ (r.maxLat : ℝ)
      exact_mod_cast (hbound pC hpC).2.1
    · show (r.minLat : ℝ) ≤ (pD.1 : ℝ)
      exact_mod_cast (hbound pD hpD).1
    · show (pD.1 : ℝ) ≤ (r.maxLat : ℝ)
      exact_mod_cast (hbound pD hpD).2.1
  rw [hac]
  simp only [rectCenter]
  push_cast
  exact hgoal

/-- C8: when the bounds accumulator is empty the auto-center recomputation
leaves the state, and in particular the map center, unchanged; only the clear
operation sets the center to the default. -/
theorem C8_empty_accumulator_keeps_center (st : MapState) (h : allPoints st = []) :
    autoCenter st = st ∧
      ∀ st' res, ((handleClearAll st' res).1).mapCenter = defaultCenter := by
  constructor
  · have hcb : computeBounds st = none := by
      rw [computeBounds_eq, h]
      rfl
    unfold autoCenter
    rw [hcb]
    split
    · rfl
    · rfl
  · intro st' res
    rfl

/-! ### The claims -/

/-- C1: every image in a photo batch whose extracted metadata has a valid
(truthy) latitude and longitude contributes a marker whose coordinates equal
the extracted ones and whose display name is the image's file name. -/
theorem C1_valid_photo_yields_matching_marker (fs : List PhotoInput) (st : MapState)
    (res : Resources) (f : PhotoInput) (hf : f ∈ fs) (gd : GpsData)
    (hgps : f.gps = .ok (some gd)) (la ln : ℚ)
    (hla : gd.latitude = some la) (hln : gd.longitude = some ln)
    (hla0 : la ≠ 0) (hln0 : ln ≠ 0) :
    ∃ m ∈ (handlePhotos (some fs) st res).1.photoMarkers,
      m.lat = la ∧ m.lng = ln ∧ m.name = f.name := by
  obtain ⟨m, hm, hmp⟩ :=
    photosLoop_mem fs res.nextHandle f hf gd hgps la ln hla hln hla0 hln0
  refine ⟨m, ?_, hmp⟩
  have hne : (photosLoop fs res.nextHandle).1.isEmpty = false := by
    cases hl : (photosLoop fs res.nextHandle).1 with
    | nil => rw [hl] at hm; cases hm
    | cons a t => rfl
  simp only [handlePhotos, hne, Bool.false_eq_true, if_false]
  exact List.mem_append_right _ hm

/-- C1 witnessed on a one-photo batch geotagged at (15, 121). -/
theorem C1_witness :
    photoGeo ∈ [photoGeo] ∧ photoGeo.gps = .ok (some ⟨some 15, some 121⟩) ∧
      (15 : ℚ) ≠ 0 ∧ (121 : ℚ) ≠ 0 ∧
      ∃ m ∈ (handlePhotos (some [photoGeo]) st0 res0).1.photoMarkers,
        m.lat = 15 ∧ m.lng = 121 ∧ m.name = photoGeo.name :=
  ⟨List.mem_singleton.mpr rfl, rfl, by norm_num, by norm_num,
    C1_valid_photo_yields_matching_marker [photoGeo] st0 res0 photoGeo
      (List.mem_singleton.mpr rfl) ⟨some 15, some 121⟩ rfl 15 121 rfl rfl
      (by norm_num) (by norm_num)⟩

/-- C2 fails on the code: ingest one geotagged photo (allocating object-URL
handle 0 for its marker), clear, and handle 0 is still not in the released
list — `handleClearAll` performs no `URL.revokeObjectURL`. -/
theorem C2_clear_leaks_object_urls :
    ((handlePhotos (some [photoGeo]) st0 res0).1.photoMarkers.map PhotoMarker.url
        = [0]) ∧
      (0 : Nat) ∉ (handleClearAll (handlePhotos (some [photoGeo]) st0 res0).1
          (handlePhotos (some [photoGeo]) st0 res0).2.1).2.released := by
  decide

/-- C2 (amended): the clear operation empties the collections and resets the
center but releases no transient image reference: the resource bookkeeping,
and in particular the released-handle list, is returned unchanged. -/
theorem C2_amended_clear_releases_nothing (st : MapState) (res : Resources) :
    (handleClearAll st res).1.photoMarkers = [] ∧
      (handleClearAll st res).2.released = res.released ∧
      (handleClearAll st res).2 = res :=
  ⟨rfl, rfl, rfl⟩

/-- C3: in both markup-ingesting handlers a file whose processing fails
contributes no geometry and has its error logged, while the batch result is
the concatenation of every file's individual contribution, so sibling files
are unaffected. -/
theorem C3_per_file_failure_isolated (pk : String → Except String Geo)
    (kfs : List KmzInput) (tfs : List TrackInput) (st1 st2 : MapState) :
    ((handleKmzFiles pk (some kfs) st1).1.geoData
        = st1.geoData ++ kfs.filterMap (fun f => outcomeGeo (processKmzFile pk f)) ∧
      ∀ f ∈ kfs, ∀ e, processKmzFile pk f = .failed e →
        outcomeGeo (processKmzFile pk f) = none ∧
          e ∈ (handleKmzFiles pk (some kfs) st1).2) ∧
    ((handleTrackingFiles pk (some tfs) st2).1.trackingData
        = st2.trackingData ++ tfs.filterMap (fun f => outcomeGeo (processTrackFile pk f)) ∧
      ∀ f ∈ tfs, ∀ e, processTrackFile pk f = .failed e →
        outcomeGeo (processTrackFile pk f) = none ∧
          e ∈ (handleTrackingFiles pk (some tfs) st2).2) := by
  refine ⟨⟨?_, ?_⟩, ?_, ?_⟩
  · simp [handleKmzFiles, batchLoop_fst]
  · intro f hf e hfe
    exact ⟨by rw [hfe]; rfl, batchLoop_log_mem _ kfs f hf e hfe⟩
  · simp [handleTrackingFiles, batchLoop_fst]
  · intro f hf e hfe
    exact ⟨by rw [hfe]; rfl, batchLoop_log_mem _ tfs f hf e hfe⟩

/-- C3 witnessed on a KMZ batch with a corrupt archive followed by a good
one, and a track batch with one unparsable file. -/
theorem C3_witness :
    ((handleKmzFiles pk0 (some [kmzBad, kmzGood]) st0).1.geoData
        = st0.geoData
          ++ [kmzBad, kmzGood].filterMap (fun f => outcomeGeo (processKmzFile pk0 f)) ∧
      outcomeGeo (processKmzFile pk0 kmzBad) = none ∧
      "Error reading KMZ: corrupt" ∈ (handleKmzFiles pk0 (some [kmzBad, kmzGood]) st0).2) ∧
    (outcomeGeo (processTrackFile pk0 trackBad) = none ∧
      "Error reading KML: parse error" ∈ (handleTrackingFiles pk0 (some [trackBad]) st0).2) ∧
    (handleKmzFiles pk0 (some [kmzBad, kmzGood]) st0).1.geoData = [⟨[(1, 2)]⟩] := by
  have h := C3_per_file_failure_isolated pk0 [kmzBad, kmzGood] [trackBad] st0 st0
  have hk := h.1.2 kmzBad (by simp) ("Error reading KMZ: corrupt") rfl
  have ht := h.2.2 trackBad (by simp) ("Error reading KML: parse error") rfl
  refine ⟨⟨h.1.1, hk.1, hk.2⟩, ⟨ht.1, ht.2⟩, ?_⟩
  simp [handleKmzFiles, batchLoop, processKmzFile, pk0, kmzBad, kmzGood, st0,
    docKml_ends_kml]

/-- C4: for a (non-null) photo batch, exactly one "no geotagged photos
found" notice fires iff the batch produced zero markers, and a batch with at
least one marker fires none. -/
theorem C4_notice_iff_no_markers (fs : List PhotoInput) (st : MapState)
    (res : Resources) :
    ((handlePhotos (some fs) st res).2.2.1 = 1 ↔
        (photosLoop fs res.nextHandle).1 = []) ∧
      ((photosLoop fs res.nextHandle).1 ≠ [] →
        (handlePhotos (some fs) st res).2.2.1 = 0) := by
  cases hl : (photosLoop fs res.nextHandle).1 with
  | nil => simp [handlePhotos, hl]
  | cons m t => simp [handlePhotos, hl]

/-- C4 witnessed on a batch of one photo without GPS metadata. -/
theorem C4_witness :
    ((handlePhotos (some [photoNoGps]) st0 res0).2.2.1 = 1 ↔
        (photosLoop [photoNoGps] res0.nextHandle).1 = []) ∧
      ((photosLoop [photoNoGps] res0.nextHandle).1 ≠ [] →
        (handlePhotos (some [photoNoGps]) st0 res0).2.2.1 = 0) :=
  C4_notice_iff_no_markers [photoNoGps] st0 res0

/-- C5: the clear operation empties the three sequences and resets the
viewport center to the fixed default, whatever the prior state. -/
theorem C5_clear_resets_state (st : MapState) (res : Resources) :
    (handleClearAll st res).1
      = { geoData := [], trackingData := [], photoMarkers := [],
          mapCenter := defaultCenter } :=
  rfl

/-- C6: each upload handler appends its batch results after the existing
elements of its own sequence, in order, and leaves the other two sequences
and the center unchanged. -/
theorem C6_batches_append (pk : String → Except String Geo) (kfs : List KmzInput)
    (tfs : List TrackInput) (pfs : List PhotoInput) (st1 st2 st3 : MapState)
    (res : Resources) :
    ((handleKmzFiles pk (some kfs) st1).1.geoData
        = st1.geoData ++ (batchLoop (processKmzFile pk) kfs).1 ∧
      (handleKmzFiles pk (some kfs) st1).1.trackingData = st1.trackingData ∧
      (handleKmzFiles pk (some kfs) st1).1.photoMarkers = st1.photoMarkers ∧
      (handleKmzFiles pk (some kfs) st1).1.mapCenter = st1.mapCenter) ∧
    ((handleTrackingFiles pk (some tfs) st2).1.trackingData
        = st2.trackingData ++ (batchLoop (processTrackFile pk) tfs).1 ∧
      (handleTrackingFiles pk (some tfs) st2).1.geoData = st2.geoData ∧
      (handleTrackingFiles pk (some tfs) st2).1.photoMarkers = st2.photoMarkers ∧
      (handleTrackingFiles pk (some tfs) st2).1.mapCenter = st2.mapCenter) ∧
    ((handlePhotos (some pfs) st3 res).1.photoMarkers
        = st3.photoMarkers ++ (photosLoop pfs res.nextHandle).1 ∧
      (handlePhotos (some pfs) st3 res).1.geoData = st3.geoData ∧
      (handlePhotos (some pfs) st3 res).1.trackingData = st3.trackingData ∧
      (handlePhotos (some pfs) st3 res).1.mapCenter = st3.mapCenter) := by
  refine ⟨⟨rfl, rfl, rfl, rfl⟩, ⟨rfl, rfl, rfl, rfl⟩, ?_⟩
  cases hl : (photosLoop pfs res.nextHandle).1 with
  | nil => simp [handlePhotos, hl]
  | cons m t => simp [handlePhotos, hl]

/-- C9: a boundary archive that loads and has exactly one `.kml` entry whose
text reads and parses successfully contributes exactly one geometry
collection; an archive with no `.kml` entry contributes nothing and logs no
error. -/
theorem C9_single_kml_entry (pk : String → Except String Geo) (st : MapState)
    (f : KmzInput) (entries : List ZipEntry) (hz : f.zip = .ok entries) :
    (∀ ent txt g, entries.filter (fun e => e.name.endsWith (".kml")) = [ent] →
        ent.text = .ok txt → pk txt = .ok g →
        (handleKmzFiles pk (some [f]) st).1.geoData = st.geoData ++ [g]) ∧
    ((∀ ent ∈ entries, ent.name.endsWith (".kml") = false) →
        (handleKmzFiles pk (some [f]) st).1.geoData = st.geoData ∧
          (handleKmzFiles pk (some [f]) st).2 = []) := by
  constructor
  · intro ent txt g hfilter htxt hpk
    have hfind : entries.find? (fun e => e.name.endsWith (".kml")) = some ent :=
      find?_of_filter_singleton _ entries ent hfilter
    simp [handleKmzFiles, batchLoop, processKmzFile, hz, hfind, htxt, hpk]
  · intro hnone
    have hfind : entries.find? (fun e => e.name.endsWith (".kml")) = none :=
      List.find?_eq_none.mpr (fun x hx => by simp [hnone x hx])
    constructor <;> simp [handleKmzFiles, batchLoop, processKmzFile, hz, hfind]

/-- C9 witnessed on an archive with exactly one `.kml` entry and on an
archive with none. -/
theorem C9_witness :
    (handleKmzFiles pk0 (some [kmzGood]) st0).1.geoData = st0.geoData ++ [⟨[(1, 2)]⟩] ∧
      (handleKmzFiles pk0 (some [kmzNoKml]) st0).1.geoData = st0.geoData ∧
      (handleKmzFiles pk0 (some [kmzNoKml]) st0).2 = [] := by
  have h1 := (C9_single_kml_entry pk0 st0 kmzGood [⟨"doc.kml", .ok ("good")⟩] rfl).1
    ⟨"doc.kml", .ok ("good")⟩ ("good") ⟨[(1, 2)]⟩
    (by simp [List.filter, docKml_ends_kml]) rfl (by simp [pk0])
  have h2 := (C9_single_kml_entry pk0 st0 kmzNoKml [⟨"readme.txt", .ok ("hi")⟩] rfl).2
    (by intro ent hent; rw [List.mem_singleton.mp hent]; exact readmeTxt_not_ends_kml)
  exact ⟨h1, h2.1, h2.2⟩

/-- C10: a photo whose extracted GPS data has latitude 0 or longitude 0
produces no marker: the `exifData?.latitude && exifData?.longitude` test uses
numeric truthiness, so a zero coordinate is treated as absent. -/
theorem C10_zero_coordinate_skipped (f : PhotoInput) (rest : List PhotoInput)
    (n : Nat) (gd : GpsData) (hgps : f.gps = .ok (some gd))
    (h0 : gd.latitude = some 0 ∨ gd.longitude = some 0) :
    photosLoop (f :: rest) n = photosLoop rest n := by
  rcases h0 with h | h <;> simp [photosLoop, hgps, truthyQ, h]

/-- C10 witnessed on a photo with GPS data (0, 121). -/
theorem C10_witness :
    photoZero.gps = .ok (some ⟨some 0, some 121⟩) ∧
      photosLoop [photoZero] 0 = photosLoop [] 0 :=
  ⟨rfl, C10_zero_coordinate_skipped photoZero [] 0 ⟨some 0, some 121⟩ rfl (Or.inl rfl)⟩

/-- C7 witnessed on a state holding one photo marker at (1, 2). -/
theorem C7_witness :
    allPoints stOneMarker ≠ [] ∧
      ((((autoCenter stOneMarker).mapCenter.1 : ℝ),
          ((autoCenter stOneMarker).mapCenter.2 : ℝ)) : ℝ × ℝ) ∈
        convexHull ℝ
          ((fun p : LatLng => ((p.1 : ℝ), (p.2 : ℝ))) '' {p | p ∈ allPoints stOneMarker}) :=
  ⟨by decide, C7_center_in_convex_hull stOneMarker (by decide)⟩

/-- C8 witnessed on a state holding one geometry without coordinates, so the
collections are non-empty but the accumulator stays empty. -/
theorem C8_witness :
    allPoints stEmptyGeo = [] ∧
      (autoCenter stEmptyGeo = stEmptyGeo ∧
        ∀ st' res, ((handleClearAll st' res).1).mapCenter = defaultCenter) :=
  ⟨rfl, C8_empty_accumulator_keeps_center stEmptyGeo rfl⟩

end MapViewSpec
